import Mathlib

/-
Shallow embedding of the particle-choreography core of the holiday scene
(src/App.tsx): the Particle class, the Experience layout engine
(calculateTargets), the gesture interpreter (processGestures) and the
photo-insertion entry point (addPhotoToScene).

Modelling conventions:
* THREE.Vector3 becomes Vec3 with real components; Vector3.lerp and
  THREE.MathUtils.lerp are transcribed from the three.js sources.
* Math.random() is modelled by an ambient stream rand : ℕ → ℝ; theorems
  that depend on the sampled values assume every rand n lies in [0,1).
  Each call site reads a fixed, distinct index of the stream: the focus
  selection reads rand 0, and the i-th particle of a layout pass reads
  rand (3i+1), rand (3i+2), rand (3i+3) for its up-to-three samples.
* The guard `!this.focusTargetId` on the `string | null` field is
  modelled as the none-test on Option String (particle ids are random
  identifier strings, so JS falsiness is the null test).
* The guard `!this.handLandmarker || !this.video || readyState < 2` is
  collapsed into a single `ready` flag of the gesture input.
-/

namespace HolidayScene

noncomputable section

/-- A 3-component vector over ℝ, modelling THREE.Vector3. -/
structure Vec3 where
  x : ℝ
  y : ℝ
  z : ℝ

/-- Vector3.lerp(v, alpha): each component moves by (v - this) * alpha. -/
def Vec3.lerp (a b : Vec3) (t : ℝ) : Vec3 :=
  ⟨a.x + (b.x - a.x) * t, a.y + (b.y - a.y) * t, a.z + (b.z - a.z) * t⟩

/-- Vector3.multiplyScalar. -/
def Vec3.multiplyScalar (a : Vec3) (s : ℝ) : Vec3 :=
  ⟨a.x * s, a.y * s, a.z * s⟩

/-- Euclidean distance between two vectors (Vector3.distanceTo). -/
def Vec3.dist (a b : Vec3) : ℝ :=
  Real.sqrt ((a.x - b.x) ^ 2 + (a.y - b.y) ^ 2 + (a.z - b.z) ^ 2)

/-- Euclidean norm (distance from the origin). -/
def Vec3.norm (a : Vec3) : ℝ :=
  Real.sqrt (a.x ^ 2 + a.y ^ 2 + a.z ^ 2)

/-- Radial (horizontal) distance from the scene's vertical axis:
the radius of the ring a point sits on, ignoring its height. -/
def Vec3.radialDist (a : Vec3) : ℝ :=
  Real.sqrt (a.x ^ 2 + a.z ^ 2)

/-- THREE.MathUtils.lerp(x, y, t) = (1 - t) * x + t * y. -/
def mathLerp (x y t : ℝ) : ℝ :=
  (1 - t) * x + t * y

/-- Math.hypot on two arguments. -/
def hypot2 (a b : ℝ) : ℝ :=
  Real.sqrt (a ^ 2 + b ^ 2)

/-- The ExperienceMode enum from types.ts. -/
inductive ExperienceMode where
  | TREE
  | SCATTER
  | FOCUS
deriving DecidableEq

/-- The particle categories of the Particle class. -/
inductive ParticleType where
  | BOX
  | SPHERE
  | CANDY
  | PHOTO
deriving DecidableEq

/-- The Particle class: its mesh transform (position, rotation, scale),
its layout target, its construction-time data and its identity. -/
structure Particle where
  pos : Vec3
  rotation : Vec3
  scale : Vec3
  targetPos : Vec3
  randomVelocity : Vec3
  initialScale : Vec3
  type : ParticleType
  id : String

/-- Particle.update(mode, focusTargetId): transcription of the position
lerp, the mode-dependent scale lerp and the rotation logic. -/
def Particle.update (p : Particle) (mode : ExperienceMode)
    (focusTargetId : Option String) : Particle :=
  let isFocusTarget : Bool := focusTargetId = some p.id
  let pos := p.pos.lerp p.targetPos 0.08
  let scale :=
    if mode = ExperienceMode.FOCUS then
      if p.type = ParticleType.PHOTO then
        if isFocusTarget then p.scale.lerp (p.initialScale.multiplyScalar 4.5) 0.1
        else p.scale.lerp ⟨0.001, 0.001, 0.001⟩ 0.1
      else p.scale.lerp ⟨0.001, 0.001, 0.001⟩ 0.1
    else p.scale.lerp p.initialScale 0.1
  let rotY :=
    if mode = ExperienceMode.FOCUS ∧ p.type = ParticleType.PHOTO ∧ isFocusTarget then
      mathLerp p.rotation.y 0 0.1
    else p.rotation.y
  let rot :=
    if mode = ExperienceMode.SCATTER then
      Vec3.mk (p.rotation.x + p.randomVelocity.x) (rotY + p.randomVelocity.y)
        (p.rotation.z + p.randomVelocity.z)
    else Vec3.mk (p.rotation.x * 0.92) rotY (p.rotation.z * 0.92)
  { p with pos := pos, scale := scale, rotation := rot }

/-- Folding Particle.update over a list of per-call (mode, focus id)
arguments: k consecutive update calls. -/
def Particle.updateSeq (p : Particle) (args : List (ExperienceMode × Option String)) :
    Particle :=
  args.foldl (fun q a => q.update a.1 a.2) p

/-- The local constant maxRadius = 14 of calculateTargets. -/
def maxRadius : ℝ := 14

/-- The local constant height = 28 of calculateTargets. -/
def treeHeight : ℝ := 28

/-- The fixed front-of-camera focus position (0, 2, 35). -/
def focusFront : Vec3 := ⟨0, 2, 35⟩

/-- TREE-branch target for the particle at index i of N:
t = i / N, radius = maxRadius * (1 - t), angle = t * 50π,
position = (cos(angle)·radius, t·height - height/2, sin(angle)·radius). -/
def treeTarget (i n : ℕ) : Vec3 :=
  let t : ℝ := (i : ℝ) / (n : ℝ)
  let radius := maxRadius * (1 - t)
  let angle := t * 50 * Real.pi
  ⟨Real.cos angle * radius, t * treeHeight - treeHeight / 2, Real.sin angle * radius⟩

/-- SCATTER-branch target built from three random samples:
theta = u1·2π, phi = acos(2·u2 - 1), r = 10 + u3·15. -/
def scatterTarget (u1 u2 u3 : ℝ) : Vec3 :=
  let theta := u1 * Real.pi * 2
  let phi := Real.arccos (2 * u2 - 1)
  let r := 10 + u3 * 15
  ⟨r * Real.sin phi * Real.cos theta, r * Real.sin phi * Real.sin theta, r * Real.cos phi⟩

/-- FOCUS-branch far-ring target for non-focus particles:
angle = u1·2π, r = 40 + u2·20, height = (u3 - 0.5)·40. -/
def ringTarget (u1 u2 u3 : ℝ) : Vec3 :=
  ⟨Real.cos (u1 * Real.pi * 2) * (40 + u2 * 20), (u3 - 0.5) * 40,
    Real.sin (u1 * Real.pi * 2) * (40 + u2 * 20)⟩

/-- The state of the Experience instance that the claims concern. -/
structure ExpState where
  particles : List Particle
  mode : ExperienceMode
  focusTargetId : Option String
  handX : ℝ
  handY : ℝ
  lastVideoTime : ℝ

/-- The per-particle body of the forEach loop in calculateTargets, for
the particle at index i of a collection of length n. -/
def calcTarget (mode : ExperienceMode) (focusId : Option String) (rand : ℕ → ℝ)
    (n i : ℕ) (p : Particle) : Particle :=
  match mode with
  | ExperienceMode.TREE => { p with targetPos := treeTarget i n }
  | ExperienceMode.SCATTER =>
      { p with targetPos := scatterTarget (rand (3 * i + 1)) (rand (3 * i + 2)) (rand (3 * i + 3)) }
  | ExperienceMode.FOCUS =>
      if some p.id = focusId then { p with targetPos := focusFront }
      else
        { p with targetPos := ringTarget (rand (3 * i + 1)) (rand (3 * i + 2)) (rand (3 * i + 3)) }

/-- Experience.calculateTargets: select (or clear) the focus target, then
recompute every particle's target position for the current mode. The
random photo pick indexes photos at floor(rand 0 · photos.length); the
out-of-range case (impossible for rand 0 in [0,1)) is absorbed by the
Option-valued list lookup. -/
def calculateTargets (rand : ℕ → ℝ) (s : ExpState) : ExpState :=
  let photos := s.particles.filter (fun p => p.type = ParticleType.PHOTO)
  let focusId : Option String :=
    if s.mode = ExperienceMode.FOCUS then
      if s.focusTargetId = none ∧ 0 < photos.length then
        (photos.get? (Nat.floor (rand 0 * (photos.length : ℝ)))).map Particle.id
      else s.focusTargetId
    else none
  { s with
    focusTargetId := focusId
    particles :=
      s.particles.mapIdx (fun i p => calcTarget s.mode focusId rand s.particles.length i p) }

/-- A freshly constructed PHOTO particle, as built by addPhotoToScene: a
new group sits at the origin with identity rotation and unit scale, so
initialScale is (1,1,1); id and randomVelocity are the random data drawn
in the Particle constructor. -/
def newPhotoParticle (pid : String) (vel : Vec3) : Particle :=
  { pos := ⟨0, 0, 0⟩, rotation := ⟨0, 0, 0⟩, scale := ⟨1, 1, 1⟩, targetPos := ⟨0, 0, 0⟩,
    randomVelocity := vel, initialScale := ⟨1, 1, 1⟩, type := ParticleType.PHOTO, id := pid }

/-- Experience.addPhotoToScene: append a new PHOTO particle, then
recompute all targets. -/
def addPhotoToScene (pid : String) (vel : Vec3) (rand : ℕ → ℝ) (s : ExpState) : ExpState :=
  calculateTargets rand { s with particles := s.particles ++ [newPhotoParticle pid vel] }

/-- A normalized hand landmark (x, y components are the ones read). -/
structure Landmark where
  x : ℝ
  y : ℝ

/-- One gesture-interpreter invocation's inputs: whether the landmarker,
video element and readyState guard passes, the video timestamp, and the
detected hands (each a total function from landmark index to landmark). -/
structure GestureInput where
  ready : Bool
  currentTime : ℝ
  hands : List (ℕ → Landmark)

/-- Pinch distance: planar distance between thumb tip (landmark 4) and
index tip (landmark 8). -/
def pinchDistOf (lms : ℕ → Landmark) : ℝ :=
  hypot2 ((lms 4).x - (lms 8).x) ((lms 4).y - (lms 8).y)

/-- Planar distance from the wrist (landmark 0) to landmark n. -/
def tipDist (lms : ℕ → Landmark) (n : ℕ) : ℝ :=
  hypot2 ((lms n).x - (lms 0).x) ((lms n).y - (lms 0).y)

/-- Average fingertip extension: mean wrist distance of landmarks
12, 16, 20 and 8 (the reduce over tips, divided by 4). -/
def avgTipDistOf (lms : ℕ → Landmark) : ℝ :=
  (tipDist lms 12 + tipDist lms 16 + tipDist lms 20 + tipDist lms 8) / 4

/-- The mode requested by the gesture thresholds, starting from the
current mode: pinch < 0.05 wins, then extension < 0.25, then
extension > 0.4, otherwise the current mode is kept. -/
def requestedMode (pinchDist avgTipDist : ℝ) (cur : ExperienceMode) : ExperienceMode :=
  if pinchDist < 0.05 then ExperienceMode.FOCUS
  else if avgTipDist < 0.25 then ExperienceMode.TREE
  else if avgTipDist > 0.4 then ExperienceMode.SCATTER
  else cur

/-- Experience.processGestures: the readiness guard, the duplicate
video-timestamp guard, the hand-count guard, the pointer-coordinate
update from landmark 9, and the mode-transition commit. -/
def processGestures (inp : GestureInput) (rand : ℕ → ℝ) (s : ExpState) : ExpState :=
  if inp.ready = false then s
  else if inp.currentTime = s.lastVideoTime then s
  else
    let s1 := { s with lastVideoTime := inp.currentTime }
    match inp.hands with
    | [] => s1
    | lms :: _ =>
      let center := lms 9
      let s2 := { s1 with handX := (center.x - 0.5) * 2, handY := (center.y - 0.5) * 2 }
      let newMode := requestedMode (pinchDistOf lms) (avgTipDistOf lms) s.mode
      if newMode ≠ s.mode then calculateTargets rand { s2 with mode := newMode }
      else s2

/-- One transition of the Experience state: a gesture-interpreter
invocation, a photo upload, or one render-loop frame (every particle
updated with the current mode and focus id). -/
inductive Step : ExpState → ExpState → Prop where
  | gesture (inp : GestureInput) (rand : ℕ → ℝ) (s : ExpState) :
      Step s (processGestures inp rand s)
  | photo (pid : String) (vel : Vec3) (rand : ℕ → ℝ) (s : ExpState) :
      Step s (addPhotoToScene pid vel rand s)
  | frame (s : ExpState) :
      Step s { s with particles := s.particles.map (fun p => p.update s.mode s.focusTargetId) }

/-- An initial Experience state: the constructor starts in TREE mode with
no focus target. -/
def Init (s : ExpState) : Prop :=
  s.mode = ExperienceMode.TREE ∧ s.focusTargetId = none

/-- Reachability from some initial state by the transitions above. -/
def Reachable (s : ExpState) : Prop :=
  ∃ s0, Init s0 ∧ Relation.ReflTransGen Step s0 s

/-- The focus-target invariant: a non-null focus id implies FOCUS mode
and names an existing PHOTO particle. -/
def FocusInv (s : ExpState) : Prop :=
  ∀ fid, s.focusTargetId = some fid →
    s.mode = ExperienceMode.FOCUS ∧
      ∃ p ∈ s.particles, p.id = fid ∧ p.type = ParticleType.PHOTO

/-- A constant random stream, used for concrete evaluations. -/
def r0 : ℕ → ℝ := fun _ => 0

/-- A concrete decorative particle. -/
def pBox : Particle :=
  { pos := ⟨0, 0, 0⟩, rotation := ⟨0, 0, 0⟩, scale := ⟨1, 1, 1⟩, targetPos := ⟨0, 0, 0⟩,
    randomVelocity := ⟨0, 0, 0⟩, initialScale := ⟨1, 1, 1⟩, type := ParticleType.BOX, id := "b" }

/-- A concrete photo particle. -/
def pPhoto : Particle :=
  { pos := ⟨0, 0, 0⟩, rotation := ⟨0, 0, 0⟩, scale := ⟨1, 1, 1⟩, targetPos := ⟨0, 0, 0⟩,
    randomVelocity := ⟨0, 0, 0⟩, initialScale := ⟨1, 1, 1⟩, type := ParticleType.PHOTO, id := "p" }

/-- A concrete state in TREE mode with one box and one photo. -/
def treeState : ExpState :=
  { particles := [pBox, pPhoto], mode := ExperienceMode.TREE, focusTargetId := none,
    handX := 0, handY := 0, lastVideoTime := 0 }

/-- A concrete state in SCATTER mode. -/
def scatterState : ExpState :=
  { treeState with mode := ExperienceMode.SCATTER }

/-- A concrete state in FOCUS mode with the focus target not yet set. -/
def focusState : ExpState :=
  { treeState with mode := ExperienceMode.FOCUS }

/-- A concrete state in FOCUS mode with the focus target already set. -/
def focusSetState : ExpState :=
  { treeState with mode := ExperienceMode.FOCUS, focusTargetId := some "p" }

/-- A concrete FOCUS-mode state holding no photo particle. -/
def noPhotoFocusState : ExpState :=
  { particles := [pBox], mode := ExperienceMode.FOCUS, focusTargetId := none,
    handX := 0, handY := 0, lastVideoTime := 0 }

/-- A concrete hand whose thumb tip sits 0.1 away from every other
landmark: pinch distance 0.1, average extension 0 - the no-transition
request from TREE mode. -/
def gapHand : ℕ → Landmark := fun n => if n = 4 then ⟨0, 0⟩ else ⟨0.1, 0⟩

/-- A concrete hand with every landmark at (1, 0): pinch distance 0. -/
def allOneHand : ℕ → Landmark := fun _ => ⟨1, 0⟩

/-- A gesture input whose timestamp equals treeState's last processed
timestamp. -/
def staleInput : GestureInput :=
  { ready := true, currentTime := 0, hands := [allOneHand] }

/-- A fresh-timestamp gesture input with no detected hand. -/
def freshEmptyInput : GestureInput :=
  { ready := true, currentTime := 1, hands := [] }

/-- A fresh-timestamp gesture input with two detected hands. -/
def twoHandsInput : GestureInput :=
  { ready := true, currentTime := 1, hands := [allOneHand, allOneHand] }

/-- A fresh-timestamp gesture input with one gap hand. -/
def oneGapHandInput : GestureInput :=
  { ready := true, currentTime := 1, hands := [gapHand] }

/-- One position lerp with factor 0.08 leaves 92% of each coordinate gap,
hence 92% of the distance. -/
lemma Vec3.dist_lerp_008 (a b : Vec3) :
    Vec3.dist (a.lerp b 0.08) b = 0.92 * Vec3.dist a b := by
  unfold Vec3.dist Vec3.lerp
  have h : (a.x + (b.x - a.x) * 0.08 - b.x) ^ 2 + (a.y + (b.y - a.y) * 0.08 - b.y) ^ 2 +
      (a.z + (b.z - a.z) * 0.08 - b.z) ^ 2 =
      0.92 ^ 2 * ((a.x - b.x) ^ 2 + (a.y - b.y) ^ 2 + (a.z - b.z) ^ 2) := by ring
  rw [h, Real.sqrt_mul (by positivity), Real.sqrt_sq (by norm_num)]

/-- Particle.update moves the position by the 0.08 lerp. -/
lemma Particle.update_pos (p : Particle) (m : ExperienceMode) (fid : Option String) :
    (p.update m fid).pos = p.pos.lerp p.targetPos 0.08 := rfl

/-- Particle.update never writes the target position. -/
lemma Particle.update_targetPos (p : Particle) (m : ExperienceMode) (fid : Option String) :
    (p.update m fid).targetPos = p.targetPos := rfl

/-- C1. Each Particle.update call moves the position 8% of the remaining
distance toward the (unchanged) target, so after any sequence of k update
calls — whatever modes and focus ids they pass — the distance to the
target is the initial distance times 0.92^k: geometric convergence that
multiplies the gap by 0.92 each call and hence never overshoots. -/
theorem update_converges_geometrically (p : Particle)
    (args : List (ExperienceMode × Option String)) :
    (p.updateSeq args).targetPos = p.targetPos ∧
      Vec3.dist (p.updateSeq args).pos (p.updateSeq args).targetPos =
        0.92 ^ args.length * Vec3.dist p.pos p.targetPos := by
  induction args generalizing p with
  | nil => simp [Particle.updateSeq]
  | cons a as ih =>
    have hstep : p.updateSeq (a :: as) = (p.update a.1 a.2).updateSeq as := rfl
    obtain ⟨ht, hd⟩ := ih (p.update a.1 a.2)
    rw [hstep]
    refine ⟨ht.trans (p.update_targetPos a.1 a.2), ?_⟩
    rw [hd, Particle.update_pos, Particle.update_targetPos, Vec3.dist_lerp_008,
      List.length_cons, pow_succ]
    ring

/-- C6. The gesture transition rule evaluates in fixed precedence: pinch
distance below 0.05 requests FOCUS regardless of extension; otherwise
extension below 0.25 requests TREE; otherwise extension above 0.4
requests SCATTER; otherwise (extension in the hysteresis gap) the
current mode is kept, so no transition is requested. -/
theorem requestedMode_precedence (pinch ext : ℝ) (cur : ExperienceMode) :
    (pinch < 0.05 → requestedMode pinch ext cur = ExperienceMode.FOCUS) ∧
      (¬pinch < 0.05 → ext < 0.25 → requestedMode pinch ext cur = ExperienceMode.TREE) ∧
      (¬pinch < 0.05 → ¬ext < 0.25 → ext > 0.4 →
        requestedMode pinch ext cur = ExperienceMode.SCATTER) ∧
      (¬pinch < 0.05 → 0.25 ≤ ext → ext ≤ 0.4 → requestedMode pinch ext cur = cur) := by
  unfold requestedMode
  refine ⟨fun h1 => by simp [h1], fun h1 h2 => by simp [h1, h2],
    fun h1 h2 h3 => by simp [h1, h2, h3], fun h1 h2 h3 => ?_⟩
  rw [if_neg h1, if_neg (by linarith), if_neg (by linarith)]

/-- C6 witness: pinch 0.03 with extension 0.5 crosses both the pinch and
the scatter thresholds, and the pinch check wins: FOCUS is requested. -/
theorem requestedMode_precedence_witness :
    requestedMode 0.03 0.5 ExperienceMode.TREE = ExperienceMode.FOCUS :=
  (requestedMode_precedence 0.03 0.5 ExperienceMode.TREE).1 (by norm_num)

/-- C7. A gesture-interpreter invocation whose video timestamp equals the
last processed timestamp mutates nothing: the state is returned as is,
so mode, focus target, pointer coordinates and all particle targets are
unchanged. -/
theorem duplicate_timestamp_noop (inp : GestureInput) (rand : ℕ → ℝ) (s : ExpState)
    (h : inp.currentTime = s.lastVideoTime) :
    processGestures inp rand s = s := by
  unfold processGestures
  by_cases hr : inp.ready = false
  · rw [if_pos hr]
  · rw [if_neg hr, if_pos h]

/-- C7 witness: a concrete second invocation at the already-processed
timestamp 0 leaves the concrete TREE state untouched. -/
theorem duplicate_timestamp_noop_witness :
    processGestures staleInput r0 treeState = treeState :=
  duplicate_timestamp_noop staleInput r0 treeState (by norm_num [staleInput, treeState])

/-- calculateTargets leaves the pointer x-coordinate alone. -/
lemma calculateTargets_handX (rand : ℕ → ℝ) (s : ExpState) :
    (calculateTargets rand s).handX = s.handX := rfl

/-- Evaluation of processGestures past its guards when at least one hand
is detected: the pointer follows landmark 9 of the first hand, and the
threshold-requested mode is committed (with a target recomputation) only
when it differs from the current mode. -/
lemma processGestures_cons (inp : GestureInput) (rand : ℕ → ℝ) (s : ExpState)
    (lm : ℕ → Landmark) (rest : List (ℕ → Landmark)) (hr : inp.ready = true)
    (ht : inp.currentTime ≠ s.lastVideoTime) (hh : inp.hands = lm :: rest) :
    processGestures inp rand s =
      if requestedMode (pinchDistOf lm) (avgTipDistOf lm) s.mode ≠ s.mode then
        calculateTargets rand
          { s with
            lastVideoTime := inp.currentTime
            handX := ((lm 9).x - 0.5) * 2
            handY := ((lm 9).y - 0.5) * 2
            mode := requestedMode (pinchDistOf lm) (avgTipDistOf lm) s.mode }
      else
        { s with
          lastVideoTime := inp.currentTime
          handX := ((lm 9).x - 0.5) * 2
          handY := ((lm 9).y - 0.5) * 2 } := by
  unfold processGestures
  rw [if_neg (by simp [hr]), if_neg ht, hh]

/-- C5. A mode-transition request equal to the current mode is a no-op:
whatever guard branch the invocation takes, the mode is not recommitted,
no particle target is recomputed, and the focus target is untouched. -/
theorem self_transition_noop (inp : GestureInput) (rand : ℕ → ℝ) (s : ExpState)
    (lm : ℕ → Landmark) (rest : List (ℕ → Landmark)) (hh : inp.hands = lm :: rest)
    (hreq : requestedMode (pinchDistOf lm) (avgTipDistOf lm) s.mode = s.mode) :
    (processGestures inp rand s).mode = s.mode ∧
      (processGestures inp rand s).focusTargetId = s.focusTargetId ∧
      (processGestures inp rand s).particles = s.particles := by
  by_cases hr : inp.ready = false
  · have e : processGestures inp rand s = s := by unfold processGestures; rw [if_pos hr]
    rw [e]; exact ⟨rfl, rfl, rfl⟩
  · have hr' : inp.ready = true := by revert hr; cases inp.ready <;> simp
    by_cases ht : inp.currentTime = s.lastVideoTime
    · have e : processGestures inp rand s = s := by
        unfold processGestures; rw [if_neg hr, if_pos ht]
      rw [e]; exact ⟨rfl, rfl, rfl⟩
    · rw [processGestures_cons inp rand s lm rest hr' ht hh, if_neg (fun hcon => hcon hreq)]
      exact ⟨rfl, rfl, rfl⟩

/-- C5 witness: a concrete hand whose pinch distance is 0.1 and average
extension is 0 requests TREE from the TREE state; the invocation commits
no mode change, keeps the focus target and recomputes no target. -/
theorem self_transition_noop_witness :
    (processGestures oneGapHandInput r0 treeState).mode = treeState.mode ∧
      (processGestures oneGapHandInput r0 treeState).focusTargetId = treeState.focusTargetId ∧
      (processGestures oneGapHandInput r0 treeState).particles = treeState.particles := by
  refine self_transition_noop oneGapHandInput r0 treeState gapHand [] rfl ?_
  have hpinch : pinchDistOf gapHand = 0.1 := by
    rw [pinchDistOf, show gapHand 4 = ⟨0, 0⟩ from rfl, show gapHand 8 = ⟨0.1, 0⟩ from by
      simp [gapHand]]
    rw [hypot2, show ((Landmark.mk 0 0).x - (Landmark.mk 0.1 0).x) ^ 2 +
      ((Landmark.mk 0 0).y - (Landmark.mk 0.1 0).y) ^ 2 = 0.1 ^ 2 from by norm_num]
    exact Real.sqrt_sq (by norm_num)
  have htip : ∀ n, n ≠ 4 → tipDist gapHand n = 0 := by
    intro n hn
    rw [tipDist, show gapHand n = ⟨0.1, 0⟩ from by simp [gapHand, hn],
      show gapHand 0 = ⟨0.1, 0⟩ from by simp [gapHand]]
    rw [hypot2, show ((Landmark.mk 0.1 0).x - (Landmark.mk 0.1 0).x) ^ 2 +
      ((Landmark.mk 0.1 0).y - (Landmark.mk 0.1 0).y) ^ 2 = 0 from by norm_num]
    exact Real.sqrt_zero
  have havg : avgTipDistOf gapHand = 0 := by
    rw [avgTipDistOf, htip 12 (by norm_num), htip 16 (by norm_num), htip 20 (by norm_num),
      htip 8 (by norm_num)]
    norm_num
  rw [hpinch, havg, requestedMode, if_neg (by norm_num), if_pos (by norm_num)]
  rfl

/-- C8 counterexample: a frame whose hand-tracking result contains two
hands does mutate state — the interpreter processes the first hand, so
the pointer x-coordinate changes from 0 to 1 on the concrete TREE state. -/
theorem two_hands_still_update :
    (processGestures twoHandsInput r0 treeState).handX ≠ treeState.handX := by
  rw [processGestures_cons twoHandsInput r0 treeState allOneHand [allOneHand] rfl
    (by norm_num [twoHandsInput, treeState]) rfl]
  have hpinch : pinchDistOf allOneHand = 0 := by
    rw [pinchDistOf, show allOneHand 4 = ⟨1, 0⟩ from rfl, show allOneHand 8 = ⟨1, 0⟩ from rfl]
    rw [hypot2, show ((Landmark.mk 1 0).x - (Landmark.mk 1 0).x) ^ 2 +
      ((Landmark.mk 1 0).y - (Landmark.mk 1 0).y) ^ 2 = 0 from by norm_num]
    exact Real.sqrt_zero
  have hreq : requestedMode (pinchDistOf allOneHand) (avgTipDistOf allOneHand) treeState.mode =
      ExperienceMode.FOCUS := by
    rw [requestedMode, if_pos (by rw [hpinch]; norm_num)]
  rw [if_pos (by rw [hreq]; exact fun hcon => by simp [treeState] at hcon)]
  rw [calculateTargets_handX]
  show ((allOneHand 9).x - 0.5) * 2 ≠ treeState.handX
  norm_num [allOneHand, treeState]

/-- C8 amended: a frame with zero detected hands performs no update —
pointer coordinates, mode, focus target and all particle targets keep
their previous values — while a frame with one or more detected hands is
processed using the first hand only, with any further hands ignored. -/
theorem zero_hands_noop_first_hand_used (inp : GestureInput) (rand : ℕ → ℝ) (s : ExpState) :
    (inp.hands = [] →
      (processGestures inp rand s).handX = s.handX ∧
        (processGestures inp rand s).handY = s.handY ∧
        (processGestures inp rand s).mode = s.mode ∧
        (processGestures inp rand s).focusTargetId = s.focusTargetId ∧
        (processGestures inp rand s).particles = s.particles) ∧
      ∀ lm rest, inp.hands = lm :: rest →
        processGestures inp rand s = processGestures { inp with hands := [lm] } rand s := by
  have h2 : ({ inp with hands := [] } : GestureInput).ready = inp.ready := rfl
  constructor
  · intro hh
    unfold processGestures
    by_cases hr : inp.ready = false
    · rw [if_pos hr]; exact ⟨rfl, rfl, rfl, rfl, rfl⟩
    · rw [if_neg hr]
      by_cases ht : inp.currentTime = s.lastVideoTime
      · rw [if_pos ht]; exact ⟨rfl, rfl, rfl, rfl, rfl⟩
      · rw [if_neg ht, hh]; exact ⟨rfl, rfl, rfl, rfl, rfl⟩
  · intro lm rest hh
    have hrdy : ({ inp with hands := [lm] } : GestureInput).ready = inp.ready := rfl
    have htime : ({ inp with hands := [lm] } : GestureInput).currentTime = inp.currentTime := rfl
    by_cases hr : inp.ready = false
    · have e1 : processGestures inp rand s = s := by unfold processGestures; rw [if_pos hr]
      have e2 : processGestures { inp with hands := [lm] } rand s = s := by
        unfold processGestures; rw [if_pos (hrdy.trans hr)]
      rw [e1, e2]
    · have hr' : inp.ready = true := by revert hr; cases inp.ready <;> simp
      by_cases ht : inp.currentTime = s.lastVideoTime
      · have e1 : processGestures inp rand s = s := by
          unfold processGestures; rw [if_neg hr, if_pos ht]
        have e2 : processGestures { inp with hands := [lm] } rand s = s := by
          unfold processGestures
          rw [if_neg (fun hcon => hr (hrdy.symm.trans hcon)), if_pos (htime.trans ht)]
        rw [e1, e2]
      · rw [processGestures_cons inp rand s lm rest hr' ht hh,
          processGestures_cons { inp with hands := [lm] } rand s lm [] (hrdy.trans hr')
            (fun hcon => ht (htime.symm.trans hcon)) rfl]

/-- C8 witness for the amended claim: the concrete zero-hand frame leaves
the TREE state's mode unchanged, and the concrete two-hand frame produces
exactly the state the first hand alone would. -/
theorem zero_hands_noop_first_hand_used_witness :
    (processGestures freshEmptyInput r0 treeState).mode = treeState.mode ∧
      processGestures twoHandsInput r0 treeState =
        processGestures { twoHandsInput with hands := [allOneHand] } r0 treeState :=
  ⟨((zero_hands_noop_first_hand_used freshEmptyInput r0 treeState).1 rfl).2.2.1,
    (zero_hands_noop_first_hand_used twoHandsInput r0 treeState).2 allOneHand [allOneHand] rfl⟩

/-- Unfolding of the focus-target selection of calculateTargets. -/
lemma calculateTargets_focusTargetId (rand : ℕ → ℝ) (s : ExpState) :
    (calculateTargets rand s).focusTargetId =
      if s.mode = ExperienceMode.FOCUS then
        if s.focusTargetId = none ∧
            0 < (s.particles.filter (fun p => p.type = ParticleType.PHOTO)).length then
          ((s.particles.filter (fun p => p.type = ParticleType.PHOTO)).get?
            (Nat.floor (rand 0 *
              (((s.particles.filter (fun p => p.type = ParticleType.PHOTO)).length : ℕ) : ℝ)))).map
            Particle.id
        else s.focusTargetId
      else none := rfl

/-- Unfolding of the per-particle pass of calculateTargets. -/
lemma calculateTargets_particles (rand : ℕ → ℝ) (s : ExpState) :
    (calculateTargets rand s).particles =
      s.particles.mapIdx (fun i p =>
        calcTarget s.mode (calculateTargets rand s).focusTargetId rand s.particles.length i p) :=
  rfl

/-- calculateTargets keeps the particle count. -/
lemma calculateTargets_length (rand : ℕ → ℝ) (s : ExpState) :
    (calculateTargets rand s).particles.length = s.particles.length := by
  rw [calculateTargets_particles, List.length_mapIdx]

/-- calculateTargets does not change the mode. -/
lemma calculateTargets_mode (rand : ℕ → ℝ) (s : ExpState) :
    (calculateTargets rand s).mode = s.mode := rfl

/-- The particle at index k after calculateTargets is the calcTarget
image of the particle at index k before. -/
lemma calculateTargets_get (rand : ℕ → ℝ) (s : ExpState) (k : ℕ)
    (hk : k < (calculateTargets rand s).particles.length) (hk' : k < s.particles.length) :
    (calculateTargets rand s).particles.get ⟨k, hk⟩ =
      calcTarget s.mode (calculateTargets rand s).focusTargetId rand s.particles.length k
        (s.particles.get ⟨k, hk'⟩) := by
  rw [List.get_eq_getElem, List.get_eq_getElem,
    List.getElem_of_eq (calculateTargets_particles rand s) hk, List.getElem_mapIdx]

/-- The TREE branch of calcTarget writes the tree spiral target. -/
lemma calcTarget_TREE_targetPos (focusId : Option String) (rand : ℕ → ℝ) (n i : ℕ)
    (p : Particle) :
    (calcTarget ExperienceMode.TREE focusId rand n i p).targetPos = treeTarget i n := rfl

/-- The SCATTER branch of calcTarget writes the shell target. -/
lemma calcTarget_SCATTER_targetPos (focusId : Option String) (rand : ℕ → ℝ) (n i : ℕ)
    (p : Particle) :
    (calcTarget ExperienceMode.SCATTER focusId rand n i p).targetPos =
      scatterTarget (rand (3 * i + 1)) (rand (3 * i + 2)) (rand (3 * i + 3)) := rfl

/-- The FOCUS branch of calcTarget sends the focus target to the front
point. -/
lemma calcTarget_FOCUS_targetPos_eq (focusId : Option String) (rand : ℕ → ℝ) (n i : ℕ)
    (p : Particle) (h : some p.id = focusId) :
    (calcTarget ExperienceMode.FOCUS focusId rand n i p).targetPos = focusFront := by
  unfold calcTarget
  rw [if_pos h]

/-- The FOCUS branch of calcTarget sends every non-focus particle to the
far ring. -/
lemma calcTarget_FOCUS_targetPos_ne (focusId : Option String) (rand : ℕ → ℝ) (n i : ℕ)
    (p : Particle) (h : ¬some p.id = focusId) :
    (calcTarget ExperienceMode.FOCUS focusId rand n i p).targetPos =
      ringTarget (rand (3 * i + 1)) (rand (3 * i + 2)) (rand (3 * i + 3)) := by
  unfold calcTarget
  rw [if_neg h]

/-- calcTarget never changes a particle's id. -/
lemma calcTarget_id (mode : ExperienceMode) (focusId : Option String) (rand : ℕ → ℝ)
    (n i : ℕ) (p : Particle) : (calcTarget mode focusId rand n i p).id = p.id := by
  cases mode with
  | TREE => rfl
  | SCATTER => rfl
  | FOCUS =>
    unfold calcTarget
    by_cases h : some p.id = focusId
    · rw [if_pos h]
    · rw [if_neg h]

/-- calcTarget never changes a particle's category. -/
lemma calcTarget_type (mode : ExperienceMode) (focusId : Option String) (rand : ℕ → ℝ)
    (n i : ℕ) (p : Particle) : (calcTarget mode focusId rand n i p).type = p.type := by
  cases mode with
  | TREE => rfl
  | SCATTER => rfl
  | FOCUS =>
    unfold calcTarget
    by_cases h : some p.id = focusId
    · rw [if_pos h]
    · rw [if_neg h]

/-- C4. After calculateTargets in TREE mode, the particle at index i of N
targets (radius·cos(angle), height, radius·sin(angle)) with t = i/N,
radius = 14·(1−t), angle = t·50π and height = t·28 − 14. -/
theorem tree_layout (rand : ℕ → ℝ) (s : ExpState) (hm : s.mode = ExperienceMode.TREE) (i : ℕ)
    (hi : i < (calculateTargets rand s).particles.length) :
    ((calculateTargets rand s).particles.get ⟨i, hi⟩).targetPos =
      ⟨14 * (1 - (i : ℝ) / (s.particles.length : ℝ)) *
          Real.cos ((i : ℝ) / (s.particles.length : ℝ) * 50 * Real.pi),
        (i : ℝ) / (s.particles.length : ℝ) * 28 - 14,
        14 * (1 - (i : ℝ) / (s.particles.length : ℝ)) *
          Real.sin ((i : ℝ) / (s.particles.length : ℝ) * 50 * Real.pi)⟩ := by
  have hi' : i < s.particles.length := by rwa [calculateTargets_length] at hi
  rw [calculateTargets_get rand s i hi hi', hm, calcTarget_TREE_targetPos]
  simp only [treeTarget, maxRadius, treeHeight, Vec3.mk.injEq]
  refine ⟨by ring, by ring, by ring⟩

/-- C4 witness: on a concrete two-particle TREE state, the particle at
index 0 targets radius 14 at angle 0 and height −14, i.e. (14, −14, 0). -/
theorem tree_layout_witness :
    ((calculateTargets r0 treeState).particles.get
        ⟨0, by rw [calculateTargets_length]; simp [treeState]⟩).targetPos =
      ⟨14, -14, 0⟩ := by
  rw [tree_layout r0 treeState rfl 0 (by rw [calculateTargets_length]; simp [treeState])]
  have hlen : ((treeState.particles.length : ℕ) : ℝ) = 2 := by
    norm_num [treeState]
  rw [hlen]
  norm_num [Real.cos_zero, Real.sin_zero]

/-- The norm of a scatter sample is exactly its sampled radius. -/
lemma norm_scatterTarget (u1 u2 u3 : ℝ) (h3 : 0 ≤ u3) :
    (scatterTarget u1 u2 u3).norm = 10 + u3 * 15 := by
  simp only [scatterTarget, Vec3.norm]
  have hkey : ((10 + u3 * 15) * Real.sin (Real.arccos (2 * u2 - 1)) *
        Real.cos (u1 * Real.pi * 2)) ^ 2 +
      ((10 + u3 * 15) * Real.sin (Real.arccos (2 * u2 - 1)) * Real.sin (u1 * Real.pi * 2)) ^ 2 +
      ((10 + u3 * 15) * Real.cos (Real.arccos (2 * u2 - 1))) ^ 2 = (10 + u3 * 15) ^ 2 := by
    linear_combination ((10 + u3 * 15) * Real.sin (Real.arccos (2 * u2 - 1))) ^ 2 *
        Real.sin_sq_add_cos_sq (u1 * Real.pi * 2) +
      (10 + u3 * 15) ^ 2 * Real.sin_sq_add_cos_sq (Real.arccos (2 * u2 - 1))
  rw [hkey]
  exact Real.sqrt_sq (by linarith)

/-- C9. After calculateTargets in SCATTER mode, every particle's target
position lies on the spherical shell: its Euclidean distance from the
origin is at least 10 and at most 25. -/
theorem scatter_layout (rand : ℕ → ℝ) (s : ExpState) (hm : s.mode = ExperienceMode.SCATTER)
    (hr : ∀ n, 0 ≤ rand n ∧ rand n < 1) (i : ℕ)
    (hi : i < (calculateTargets rand s).particles.length) :
    10 ≤ (((calculateTargets rand s).particles.get ⟨i, hi⟩).targetPos).norm ∧
      (((calculateTargets rand s).particles.get ⟨i, hi⟩).targetPos).norm ≤ 25 := by
  have hi' : i < s.particles.length := by rwa [calculateTargets_length] at hi
  rw [calculateTargets_get rand s i hi hi', hm, calcTarget_SCATTER_targetPos,
    norm_scatterTarget _ _ _ (hr (3 * i + 3)).1]
  have h3 := hr (3 * i + 3)
  exact ⟨by linarith [h3.1], by linarith [h3.2]⟩

/-- C9 witness: on the concrete SCATTER state with the zero random
stream, particle 0's target norm is between 10 and 25. -/
theorem scatter_layout_witness :
    10 ≤ (((calculateTargets r0 scatterState).particles.get
        ⟨0, by rw [calculateTargets_length]; simp [scatterState, treeState]⟩).targetPos).norm ∧
      (((calculateTargets r0 scatterState).particles.get
        ⟨0, by rw [calculateTargets_length]; simp [scatterState, treeState]⟩).targetPos).norm ≤
        25 :=
  scatter_layout r0 scatterState rfl (fun n => by norm_num [r0]) 0
    (by rw [calculateTargets_length]; simp [scatterState, treeState])

/-- The radial distance of a far-ring sample is exactly its sampled
ring radius. -/
lemma radialDist_ringTarget (u1 u2 u3 : ℝ) (h2 : 0 ≤ u2) :
    (ringTarget u1 u2 u3).radialDist = 40 + u2 * 20 := by
  simp only [ringTarget, Vec3.radialDist]
  have hkey : (Real.cos (u1 * Real.pi * 2) * (40 + u2 * 20)) ^ 2 +
      (Real.sin (u1 * Real.pi * 2) * (40 + u2 * 20)) ^ 2 = (40 + u2 * 20) ^ 2 := by
    linear_combination (40 + u2 * 20) ^ 2 * Real.sin_sq_add_cos_sq (u1 * Real.pi * 2)
  rw [hkey]
  exact Real.sqrt_sq (by linarith)

/-- A far-ring sample has radial distance in [40, 60] and in particular
is never the front-of-camera point, whose radial distance is 35. -/
lemma ringTarget_props (u1 u2 u3 : ℝ) (h2a : 0 ≤ u2) (h2b : u2 < 1) :
    40 ≤ (ringTarget u1 u2 u3).radialDist ∧ (ringTarget u1 u2 u3).radialDist ≤ 60 ∧
      ringTarget u1 u2 u3 ≠ focusFront := by
  have hrad := radialDist_ringTarget u1 u2 u3 h2a
  refine ⟨by rw [hrad]; linarith, by rw [hrad]; linarith, fun hcon => ?_⟩
  have h35 : focusFront.radialDist = 35 := by
    simp only [focusFront, Vec3.radialDist]
    rw [show (0 : ℝ) ^ 2 + 35 ^ 2 = 35 ^ 2 by norm_num]
    exact Real.sqrt_sq (by norm_num)
  rw [hcon, h35] at hrad
  linarith

/-- C10. calculateTargets in FOCUS mode with no PHOTO particle present
leaves the focus target null and sends every particle to the far ring
(radial distance in [40, 60]); no particle receives the front-of-camera
target (0, 2, 35). -/
theorem focus_without_photo (rand : ℕ → ℝ) (s : ExpState)
    (hm : s.mode = ExperienceMode.FOCUS) (hf : s.focusTargetId = none)
    (hp : ∀ p ∈ s.particles, p.type ≠ ParticleType.PHOTO)
    (hr : ∀ n, 0 ≤ rand n ∧ rand n < 1) :
    (calculateTargets rand s).focusTargetId = none ∧
      ∀ i (hi : i < (calculateTargets rand s).particles.length),
        40 ≤ (((calculateTargets rand s).particles.get ⟨i, hi⟩).targetPos).radialDist ∧
          (((calculateTargets rand s).particles.get ⟨i, hi⟩).targetPos).radialDist ≤ 60 ∧
          ((calculateTargets rand s).particles.get ⟨i, hi⟩).targetPos ≠ focusFront := by
  have hphotos : s.particles.filter (fun p => p.type = ParticleType.PHOTO) = [] := by
    rw [List.filter_eq_nil_iff]
    intro p hpmem
    simp [hp p hpmem]
  have hfid : (calculateTargets rand s).focusTargetId = none := by
    rw [calculateTargets_focusTargetId, if_pos hm, if_neg (by rw [hphotos]; simp), hf]
  refine ⟨hfid, fun i hi => ?_⟩
  have hi' : i < s.particles.length := by rwa [calculateTargets_length] at hi
  rw [calculateTargets_get rand s i hi hi', hm, hfid,
    calcTarget_FOCUS_targetPos_ne _ _ _ _ _ (by simp)]
  exact ringTarget_props _ _ _ (hr (3 * i + 2)).1 (hr (3 * i + 2)).2

/-- C10 witness: the concrete FOCUS state holding only a box particle
keeps a null focus target and sends particle 0 to the far ring, away
from (0, 2, 35). -/
theorem focus_without_photo_witness :
    (calculateTargets r0 noPhotoFocusState).focusTargetId = none ∧
      ∀ i (hi : i < (calculateTargets r0 noPhotoFocusState).particles.length),
        40 ≤ (((calculateTargets r0 noPhotoFocusState).particles.get
            ⟨i, hi⟩).targetPos).radialDist ∧
          (((calculateTargets r0 noPhotoFocusState).particles.get
            ⟨i, hi⟩).targetPos).radialDist ≤ 60 ∧
          ((calculateTargets r0 noPhotoFocusState).particles.get ⟨i, hi⟩).targetPos ≠
            focusFront :=
  focus_without_photo r0 noPhotoFocusState rfl rfl
    (by intro p hp; simp only [noPhotoFocusState] at hp; simp at hp; rw [hp]; decide)
    (fun n => by norm_num [r0])

/-- Fin-indexed restatement of calculateTargets_get. -/
lemma calculateTargets_get_fin (rand : ℕ → ℝ) (s : ExpState)
    (k : Fin (calculateTargets rand s).particles.length) (hk' : ↑k < s.particles.length) :
    (calculateTargets rand s).particles.get k =
      calcTarget s.mode (calculateTargets rand s).focusTargetId rand s.particles.length ↑k
        (s.particles.get ⟨↑k, hk'⟩) :=
  calculateTargets_get rand s ↑k k.isLt hk'

/-- C3. After calculateTargets in FOCUS mode on a state whose particle
ids are pairwise distinct, with at least one PHOTO particle present and a
well-formed focus target (unset, or already naming an existing PHOTO
particle), exactly one particle — the selected focus target — has target
position (0, 2, 35): every other particle targets the far ring, with
radial distance in [40, 60]. -/
theorem focus_layout (rand : ℕ → ℝ) (s : ExpState) (hm : s.mode = ExperienceMode.FOCUS)
    (hnodup : (s.particles.map Particle.id).Nodup)
    (hr : ∀ n, 0 ≤ rand n ∧ rand n < 1)
    (hphoto : ∃ p ∈ s.particles, p.type = ParticleType.PHOTO)
    (hwf : s.focusTargetId = none ∨
      ∃ p ∈ s.particles, p.type = ParticleType.PHOTO ∧ s.focusTargetId = some p.id) :
    ∃ j : Fin (calculateTargets rand s).particles.length,
      some (((calculateTargets rand s).particles.get j).id) =
          (calculateTargets rand s).focusTargetId ∧
        ((calculateTargets rand s).particles.get j).targetPos = focusFront ∧
        ∀ k : Fin (calculateTargets rand s).particles.length, k ≠ j →
          40 ≤ (((calculateTargets rand s).particles.get k).targetPos).radialDist ∧
            (((calculateTargets rand s).particles.get k).targetPos).radialDist ≤ 60 ∧
            ((calculateTargets rand s).particles.get k).targetPos ≠ focusFront := by
  have hfid : ∃ q ∈ s.particles, q.type = ParticleType.PHOTO ∧
      (calculateTargets rand s).focusTargetId = some q.id := by
    rcases hwf with hnone | ⟨p, hpmem, hpty, hpfid⟩
    · have hlen : 0 < (s.particles.filter (fun p => p.type = ParticleType.PHOTO)).length := by
        obtain ⟨p, hpmem, hpty⟩ := hphoto
        exact List.length_pos.mpr (List.ne_nil_of_mem
          (List.mem_filter.mpr ⟨hpmem, by simp [hpty]⟩))
      set photos := s.particles.filter (fun p => p.type = ParticleType.PHOTO) with hph
      have h0 := hr 0
      have hidx : Nat.floor (rand 0 * (photos.length : ℝ)) < photos.length := by
        rw [Nat.floor_lt (mul_nonneg h0.1 (by positivity))]
        have hpos : (0 : ℝ) < (photos.length : ℝ) := by exact_mod_cast hlen
        nlinarith [h0.2, hpos]
      refine ⟨photos.get ⟨_, hidx⟩, ?_, ?_, ?_⟩
      · exact (List.mem_filter.mp (List.get_mem photos _ hidx)).1
      · have := (List.mem_filter.mp (List.get_mem photos _ hidx)).2
        simpa using this
      · rw [calculateTargets_focusTargetId, if_pos hm, if_pos ⟨hnone, hlen⟩,
          List.get?_eq_get hidx]
        rfl
    · refine ⟨p, hpmem, hpty, ?_⟩
      rw [calculateTargets_focusTargetId, if_pos hm, if_neg (by rw [hpfid]; simp), hpfid]
  obtain ⟨q, hqmem, hqty, hqfid⟩ := hfid
  obtain ⟨j0, hj0⟩ := List.mem_iff_get.mp hqmem
  refine ⟨⟨↑j0, by rw [calculateTargets_length]; exact j0.isLt⟩, ?_, ?_, ?_⟩
  · rw [calculateTargets_get rand s ↑j0 _ j0.isLt]
    simp only [Fin.eta]
    rw [hj0, calcTarget_id]
    exact hqfid.symm
  · rw [calculateTargets_get rand s ↑j0 _ j0.isLt]
    simp only [Fin.eta]
    rw [hj0, hm, calcTarget_FOCUS_targetPos_eq _ _ _ _ _ hqfid.symm]
  · intro k hkne
    have hk' : (k : ℕ) < s.particles.length :=
      lt_of_lt_of_eq k.isLt (calculateTargets_length rand s)
    have hidne : (s.particles.get ⟨↑k, hk'⟩).id ≠ q.id := by
      intro hcon
      apply hkne
      have hmapk : (↑k : ℕ) < (s.particles.map Particle.id).length := by
        rwa [List.length_map]
      have hmapj : (↑j0 : ℕ) < (s.particles.map Particle.id).length := by
        rw [List.length_map]; exact j0.isLt
      have hgetmap : (s.particles.map Particle.id).get ⟨↑k, hmapk⟩ =
          (s.particles.map Particle.id).get ⟨↑j0, hmapj⟩ := by
        rw [List.get_eq_getElem, List.get_eq_getElem, List.getElem_map, List.getElem_map,
          show s.particles[(↑k : ℕ)] = s.particles.get ⟨↑k, hk'⟩ from rfl,
          show s.particles[(↑j0 : ℕ)] = s.particles.get j0 from rfl, hcon, hj0]
      have hfin := (hnodup.get_inj_iff).mp hgetmap
      exact Fin.ext (by simpa using congrArg Fin.val hfin)
    rw [calculateTargets_get_fin rand s k hk', hm,
      calcTarget_FOCUS_targetPos_ne _ _ _ _ _
        (by rw [hqfid]; intro hcon; exact hidne (Option.some.inj hcon))]
    exact ringTarget_props _ _ _ (hr (3 * ↑k + 2)).1 (hr (3 * ↑k + 2)).2

/-- C3 witness: on the concrete FOCUS state with particles box then
photo and the zero random stream, the photo is selected and targets
(0, 2, 35) while every other particle is ringed in [40, 60]. -/
theorem focus_layout_witness :
    ∃ j : Fin (calculateTargets r0 focusState).particles.length,
      some (((calculateTargets r0 focusState).particles.get j).id) =
          (calculateTargets r0 focusState).focusTargetId ∧
        ((calculateTargets r0 focusState).particles.get j).targetPos = focusFront ∧
        ∀ k : Fin (calculateTargets r0 focusState).particles.length, k ≠ j →
          40 ≤ (((calculateTargets r0 focusState).particles.get k).targetPos).radialDist ∧
            (((calculateTargets r0 focusState).particles.get k).targetPos).radialDist ≤ 60 ∧
            ((calculateTargets r0 focusState).particles.get k).targetPos ≠ focusFront :=
  focus_layout r0 focusState rfl (by decide) (fun n => by norm_num [r0])
    ⟨pPhoto, by simp [focusState, treeState], rfl⟩ (Or.inl rfl)

/-- An id-and-category witness in the old collection survives
calculateTargets. -/
lemma photo_mem_calculateTargets (rand : ℕ → ℝ) (s : ExpState) (fid : String)
    (h : ∃ p ∈ s.particles, p.id = fid ∧ p.type = ParticleType.PHOTO) :
    ∃ p ∈ (calculateTargets rand s).particles, p.id = fid ∧ p.type = ParticleType.PHOTO := by
  obtain ⟨p, hpmem, hpid, hpty⟩ := h
  obtain ⟨i, hi⟩ := List.mem_iff_get.mp hpmem
  have hilt : ↑i < (calculateTargets rand s).particles.length := by
    rw [calculateTargets_length]; exact i.isLt
  refine ⟨(calculateTargets rand s).particles.get ⟨↑i, hilt⟩, List.get_mem _ _ _, ?_, ?_⟩
  · rw [calculateTargets_get rand s ↑i hilt i.isLt, calcTarget_id]
    simp only [Fin.eta]
    rw [hi, hpid]
  · rw [calculateTargets_get rand s ↑i hilt i.isLt, calcTarget_type]
    simp only [Fin.eta]
    rw [hi, hpty]

/-- calculateTargets establishes the focus-target invariant whenever the
incoming focus id (if any) names a PHOTO particle of the collection. -/
lemma focusInv_calculateTargets (rand : ℕ → ℝ) (s : ExpState)
    (h : ∀ fid, s.focusTargetId = some fid →
      ∃ p ∈ s.particles, p.id = fid ∧ p.type = ParticleType.PHOTO) :
    FocusInv (calculateTargets rand s) := by
  intro fid hfid
  have hmode : s.mode = ExperienceMode.FOCUS := by
    by_contra hne
    rw [calculateTargets_focusTargetId, if_neg hne] at hfid
    exact Option.noConfusion hfid
  refine ⟨(calculateTargets_mode rand s).trans hmode, ?_⟩
  rw [calculateTargets_focusTargetId, if_pos hmode] at hfid
  by_cases hsel : s.focusTargetId = none ∧
      0 < (s.particles.filter (fun p => p.type = ParticleType.PHOTO)).length
  · rw [if_pos hsel] at hfid
    obtain ⟨q, hq1, hq2⟩ := Option.map_eq_some'.mp hfid
    have hqmem := List.mem_filter.mp (List.get?_mem hq1)
    exact photo_mem_calculateTargets rand s fid ⟨q, hqmem.1, hq2, by simpa using hqmem.2⟩
  · rw [if_neg hsel] at hfid
    exact photo_mem_calculateTargets rand s fid (h fid hfid)

/-- Every transition of the system preserves the focus-target invariant. -/
lemma focusInv_step (s s' : ExpState) (hstep : Step s s') (hinv : FocusInv s) : FocusInv s' := by
  cases hstep with
  | gesture inp rand _ =>
    by_cases hready : inp.ready = false
    · have e : processGestures inp rand s = s := by unfold processGestures; rw [if_pos hready]
      rw [e]; exact hinv
    · have hr' : inp.ready = true := by revert hready; cases inp.ready <;> simp
      by_cases ht : inp.currentTime = s.lastVideoTime
      · have e : processGestures inp rand s = s := by
          unfold processGestures; rw [if_neg hready, if_pos ht]
        rw [e]; exact hinv
      · cases hh : inp.hands with
        | nil =>
          have e : processGestures inp rand s = { s with lastVideoTime := inp.currentTime } := by
            unfold processGestures; rw [if_neg hready, if_neg ht, hh]
          rw [e]; exact fun fid hfid => hinv fid hfid
        | cons lm rest =>
          rw [processGestures_cons inp rand s lm rest hr' ht hh]
          by_cases hmode : requestedMode (pinchDistOf lm) (avgTipDistOf lm) s.mode ≠ s.mode
          · rw [if_pos hmode]
            exact focusInv_calculateTargets rand _ (fun fid hfid => (hinv fid hfid).2)
          · rw [if_neg hmode]
            exact fun fid hfid => hinv fid hfid
  | photo pid vel rand _ =>
    unfold addPhotoToScene
    apply focusInv_calculateTargets
    intro fid hfid
    obtain ⟨p, hpmem, hpid, hpty⟩ := (hinv fid hfid).2
    exact ⟨p, List.mem_append_left _ hpmem, hpid, hpty⟩
  | frame _ =>
    intro fid hfid
    obtain ⟨hmode, p, hpmem, hpid, hpty⟩ := hinv fid hfid
    refine ⟨hmode, p.update s.mode s.focusTargetId, List.mem_map_of_mem _ hpmem, ?_, ?_⟩
    · rw [show (p.update s.mode s.focusTargetId).id = p.id from rfl, hpid]
    · rw [show (p.update s.mode s.focusTargetId).type = p.type from rfl, hpty]

/-- The initial state (TREE mode, no focus target) satisfies the
focus-target invariant vacuously. -/
lemma focusInv_init (s : ExpState) (h : Init s) : FocusInv s := by
  intro fid hfid
  rw [h.2] at hfid
  exact Option.noConfusion hfid

/-- C2. The focus-target identifier is an invariant of every reachable
state: it is non-null only while the mode is FOCUS and then names an
existing PHOTO particle; calculateTargets never changes an already-set
focus target while the mode stays FOCUS (so it is chosen at most once per
FOCUS entry), and clears it whenever the mode is not FOCUS. -/
theorem focus_target_invariant :
    (∀ s, Reachable s → FocusInv s) ∧
      (∀ (rand : ℕ → ℝ) (s : ExpState) (fid : String), s.mode = ExperienceMode.FOCUS →
        s.focusTargetId = some fid → (calculateTargets rand s).focusTargetId = some fid) ∧
      (∀ (rand : ℕ → ℝ) (s : ExpState), s.mode ≠ ExperienceMode.FOCUS →
        (calculateTargets rand s).focusTargetId = none) := by
  refine ⟨?_, ?_, ?_⟩
  · rintro s ⟨s0, hinit, hsteps⟩
    induction hsteps with
    | refl => exact focusInv_init s0 hinit
    | tail _ hstep ih => exact focusInv_step _ _ hstep ih
  · intro rand s fid hm hf
    rw [calculateTargets_focusTargetId, if_pos hm, if_neg (by rw [hf]; simp), hf]
  · intro rand s hm
    rw [calculateTargets_focusTargetId, if_neg hm]

/-- C2 witness: the concrete initial TREE state is reachable and
satisfies the invariant; on the concrete FOCUS state with the target
already set to the photo's id, calculateTargets keeps it; on the
concrete TREE state it clears the target. -/
theorem focus_target_invariant_witness :
    FocusInv treeState ∧
      (calculateTargets r0 focusSetState).focusTargetId = some "p" ∧
      (calculateTargets r0 treeState).focusTargetId = none :=
  ⟨focus_target_invariant.1 treeState ⟨treeState, ⟨rfl, rfl⟩, Relation.ReflTransGen.refl⟩,
    focus_target_invariant.2.1 r0 focusSetState "p" rfl rfl,
    focus_target_invariant.2.2 r0 treeState (by decide)⟩

end

end HolidayScene
